import Mathlib

/-!
Verification of the COSMO apk instrumenter (`src/apk_instrumenter.py`)
against its natural-language specification.

The development shallowly embeds the core logic of the program:

* the archive transformer `repackage_apk` (lines 277-331): a zip archive is a
  list of `(path, bytes)` entries; the source archive is traversed in order,
  entries under `META-INF/` and entries matching `classes*.dex` are dropped,
  every other entry is copied verbatim, then the replacement dex files and the
  `jacoco-agent.properties` entry are appended;
* the manifest patcher `patch_manifest` (lines 362-379): an XML tree, the first
  `application` child of the root gains a fixed `receiver` subtree as its last
  child; failure to find `application` aborts before the tree is serialized;
* the requirements check `check_requirements` (lines 59-128) and the linear
  pipeline of `instrument_apk` (lines 154-181), modelled as a list of stages
  executed in order where the first failing stage aborts the run.
-/

namespace Cosmo

/-! ## Archive model -/

/-- One zip-archive entry: a path and its byte content
(bytes modelled as natural numbers). -/
structure Entry where
  path : String
  content : List Nat
  deriving DecidableEq, Repr

/-- `s.startswith(pre)` of Python, on the character lists of the strings. -/
def strStartsWith (s pre : String) : Bool := decide (pre.data <+: s.data)

/-- `s.endswith(suf)` of Python, on the character lists of the strings. -/
def strEndsWith (s suf : String) : Bool := decide (suf.data <:+ s.data)

/-- Line 293: `entry.filename.startswith("META-INF/")` — signature metadata. -/
def isSignatureMetadata (p : String) : Bool := strStartsWith p "META-INF/"

/-- Lines 297-299: `entry.filename.startswith("classes") and
entry.filename.endswith(".dex")` — primary bytecode. -/
def isPrimaryBytecode (p : String) : Bool :=
  strStartsWith p "classes" && strEndsWith p ".dex"

/-- The branch structure of lines 292-308: an entry is written to the new
archive iff it is neither signature metadata nor primary bytecode. -/
def keptEntry (e : Entry) : Bool :=
  !(isSignatureMetadata e.path) && !(isPrimaryBytecode e.path)

/-- The pass over the source archive (lines 292-308), in original order. -/
def keptEntries (src : List Entry) : List Entry := src.filter keptEntry

/-- Line 322: the fixed name of the injected properties entry. -/
def propsName : String := "jacoco-agent.properties"

/-- `repackage_apk` (lines 284-327) as a function on archive contents:
the kept source entries in their original order, then one entry per file of
the instrumented-dex directory (lines 311-317), then the
`jacoco-agent.properties` entry (lines 320-323). -/
def repackage_apk (src repl : List Entry) (props : List Nat) : List Entry :=
  keptEntries src ++ repl ++ [⟨propsName, props⟩]

/-- Number of entries of an archive with a given path. -/
def countPath (p : String) (l : List Entry) : Nat :=
  l.countP (fun e => decide (e.path = p))

/-- The failure behaviour of `repackage_apk` (lines 284-331) with respect to
the file at `target_apk_path`: the source zip is opened (line 286, raises on a
malformed archive), the instrumented-dex directory is listed (line 311, raises
when absent), the properties file is opened (line 320, raises when absent),
and only after the in-memory archive is complete is the target overwritten in
one write (lines 326-327).  `none` inputs model those failures; `disk` is the
prior content at the target path. -/
def repackage_apk_run (src repl : Option (List Entry)) (props : Option (List Nat))
    (disk : List Entry) : List Entry × Bool :=
  match src, repl, props with
  | some s, some r, some p => (repackage_apk s r p, true)
  | _, _, _ => (disk, false)

/-! ## Manifest model -/

/-- An XML element: tag, attributes (attribute keys are the literal qualified
names the code passes to `set`, e.g. `android:name`), children. -/
inductive XML : Type where
  | elem (tag : String) (attrs : List (String × String)) (children : List XML)

def XML.tag : XML → String
  | .elem t _ _ => t

def XML.attrs : XML → List (String × String)
  | .elem _ a _ => a

def XML.children : XML → List XML
  | .elem _ _ c => c

/-- `getroot().find('./application')` (line 368): the first direct child with
tag `application`, if any. -/
def findApplication : List XML → Option XML
  | [] => none
  | c :: cs => if c.tag = "application" then some c else findApplication cs

/-- The subtree built by lines 369-374: a `receiver` element with the fixed
name and exported attributes, holding one `intent-filter` with one `action`. -/
def receiverElem : XML :=
  .elem "receiver"
    [("android:name", "cosmo.receiver.EndCoverageBroadcast"),
     ("android:exported", "true")]
    [.elem "intent-filter" []
      [.elem "action" [("android:name", "intent.END_COVERAGE")] []]]

/-- `ET.SubElement(application, 'receiver')` and the following lines mutate
`application` by appending the receiver subtree as its last child. -/
def appendReceiver (app : XML) : XML :=
  .elem app.tag app.attrs (app.children ++ [receiverElem])

/-- The effect of `patch_manifest` on the root's child list: the first
`application` child gains the receiver subtree; if there is none,
`find` returns `None` and `ET.SubElement(None, ...)` raises (`none`). -/
def patchChildren : List XML → Option (List XML)
  | [] => none
  | c :: cs =>
      if c.tag = "application" then some (appendReceiver c :: cs)
      else (patchChildren cs).map (c :: ·)

/-- `patch_manifest` (lines 362-379) on a parsed document. -/
def patch_manifest (root : XML) : Option XML :=
  (patchChildren root.children).map (XML.elem root.tag root.attrs)

/-- The effect of `patch_manifest` on the manifest file at `manifest_path`:
`manifest.write(manifest_path)` (line 375) runs only after the patch succeeds,
so a failed patch leaves the document on disk unchanged.  Returns the
resulting on-disk document and whether the patch succeeded. -/
def runPatchOnDisk (disk : XML) : XML × Bool :=
  match patch_manifest disk with
  | some d => (d, true)
  | none => (disk, false)

/-- Number of children with a given tag. -/
def countTag (t : String) (cs : List XML) : Nat :=
  cs.countP (fun c => decide (c.tag = t))

/-! ## Namespace serialization model -/

/-- Modelled from the spec: the XML serializer used by `patch_manifest` is the
standard library's, whose code is not part of this repository.  Per the spec,
serialization emits, for a namespace URI used by the document, the prefix
registered for that URI, and an auto-generated prefix (`ns0`) when none is
registered ("naive re-serialization without this step would emit
auto-generated prefixes"). -/
def serializerPrefixFor (registry : List (String × String)) (uri : String) : String :=
  match registry.find? (fun b => decide (b.2 = uri)) with
  | some b => b.1
  | none => "ns0"

/-- The vendor namespace URI of line 366. -/
def androidNamespaceURI : String := "http://schemas.android.com/apk/res/android"

/-- Line 366: `ET.register_namespace('android', "http://...res/android")` —
the prefix registry in effect when `patch_manifest` serializes. -/
def patchRegisteredNamespaces : List (String × String) :=
  [("android", androidNamespaceURI)]

/-! ## Requirements check and pipeline model -/

/-- The presence facts `check_requirements` (lines 59-128) and the pipeline
stages depend on: the four bundled asset files and the six executables
resolved via `shutil.which`. -/
structure Env where
  receiverJar : Bool
  agentJar : Bool
  propsTemplate : Bool
  debugKeystore : Bool
  javaFound : Bool
  dex2jarFound : Bool
  dxFound : Bool
  zipalignFound : Bool
  apksignerFound : Bool
  apktoolFound : Bool
  deriving DecidableEq, Repr

/-- `check_requirements` (lines 59-128): it tests `receiver.jar` (line 64) and
the six executables (lines 70-128), raising on the first absence; it performs
no check on the agent jar, the properties template or the debug keystore. -/
def check_requirements (e : Env) : Bool :=
  e.receiverJar && e.javaFound && e.dex2jarFound && e.dxFound &&
  e.zipalignFound && e.apksignerFound && e.apktoolFound

/-- The pipeline stages of `run_instrumentation`/`instrument_apk`:
`parse_android_apk` (stage 1) and the calls of lines 172-181 in order. -/
inductive Stage where
  | parseApk
  | dex2jar
  | instrumentJar
  | dalvik
  | repackage
  | decode
  | patchManifest
  | build
  | align
  | sign
  | copyOut
  deriving DecidableEq, Repr

/-- The order of lines 51-52 and 172-181: validation, nine transformation
stages, then `copy_outputs`. -/
def pipelineOrder : List Stage :=
  [.parseApk, .dex2jar, .instrumentJar, .dalvik, .repackage, .decode,
   .patchManifest, .build, .align, .sign, .copyOut]

/-- Stages 2 through 10 of the spec: bytecode conversion through signing. -/
def middleStages : List Stage :=
  [.dex2jar, .instrumentJar, .dalvik, .repackage, .decode,
   .patchManifest, .build, .align, .sign]

/-- Exception propagation through the straight-line sequence: each stage runs
only if all previous stages succeeded (`ok` tells which stages succeed); a
failing stage is the last one to run. -/
def executedStages (ok : Stage → Bool) : List Stage → List Stage
  | [] => []
  | s :: rest => if ok s then s :: executedStages ok rest else [s]

/-- The first failing stage of the run, if any; the raised error propagates to
the caller of `run_instrumentation` (lines 53-57 re-raise). -/
def firstFailure (ok : Stage → Bool) : List Stage → Option Stage
  | [] => none
  | s :: rest => if ok s then firstFailure ok rest else some s

/-- `run_instrumentation` (lines 47-57): `check_requirements` runs first and
its failure aborts the run before any pipeline stage; otherwise the stages run
in order.  Returns the executed stages and whether the whole run succeeded. -/
def run_instrumentation (e : Env) (ok : Stage → Bool) : List Stage × Bool :=
  if check_requirements e then
    (executedStages ok pipelineOrder, decide (firstFailure ok pipelineOrder = none))
  else ([], false)

/-! ## Helper lemmas -/

theorem mem_keptEntries {src : List Entry} {e : Entry} (h : e ∈ keptEntries src) :
    e ∈ src ∧ keptEntry e = true :=
  List.mem_filter.1 h

theorem signatureMetadata_has_slash {p : String}
    (h : isSignatureMetadata p = true) : ('/' : Char) ∈ p.data := by
  have hp : "META-INF/".data <+: p.data :=
    of_decide_eq_true (by simpa [isSignatureMetadata, strStartsWith] using h)
  exact hp.subset (by decide)

/-! ## Claims about the archive transformer -/

/-- C1: every ordinary entry of the source archive (neither under `META-INF/`
nor matching the `classes*.dex` pattern) is present in the repackaged archive
at the same path with the same byte content. -/
theorem repackage_preserves_ordinary_entries
    (src repl : List Entry) (props : List Nat) (e : Entry)
    (he : e ∈ src)
    (hm : isSignatureMetadata e.path = false)
    (hd : isPrimaryBytecode e.path = false) :
    e ∈ repackage_apk src repl props := by
  refine List.mem_append_left _ (List.mem_append_left _ ?_)
  exact List.mem_filter.2 ⟨he, by simp [keptEntry, hm, hd]⟩

theorem repackage_preserves_ordinary_entries_witness :
    (⟨"res/layout.xml", [4]⟩ : Entry) ∈
      repackage_apk
        [⟨"res/layout.xml", [4]⟩, ⟨"classes.dex", [2]⟩, ⟨"META-INF/CERT.SF", [3]⟩]
        [⟨"classes.dex", [9]⟩] [5] :=
  repackage_preserves_ordinary_entries _ _ _ _ (by decide) (by decide) (by decide)

/-- C2: no entry of the repackaged archive lies under `META-INF/` (given that
the injected replacement files are plain filenames, which contain no `/`), and
no original entry matching the primary-bytecode pattern appears in the
repackaged archive (unless the replacement directory itself re-injects that
very entry). -/
theorem repackage_excludes_signature_and_original_dex
    (src repl : List Entry) (props : List Nat)
    (hrepl : ∀ r ∈ repl, ('/' : Char) ∉ r.path.data) :
    (∀ e ∈ repackage_apk src repl props, isSignatureMetadata e.path = false) ∧
    (∀ e ∈ src, isPrimaryBytecode e.path = true → e ∉ repl →
      e ∉ repackage_apk src repl props) := by
  constructor
  · intro e hmem
    simp only [repackage_apk, List.mem_append, List.mem_singleton] at hmem
    rcases hmem with (hk | hr) | hp
    · have hke := (mem_keptEntries hk).2
      simp only [keptEntry, Bool.and_eq_true, Bool.not_eq_true'] at hke
      exact hke.1
    · cases hs : isSignatureMetadata e.path with
      | false => rfl
      | true => exact absurd (signatureMetadata_has_slash hs) (hrepl e hr)
    · have hpath : e.path = propsName := by rw [hp]
      rw [hpath]
      decide
  · intro e _ hdex hnr hmem
    simp only [repackage_apk, List.mem_append, List.mem_singleton] at hmem
    rcases hmem with (hk | hr) | hp
    · have hke := (mem_keptEntries hk).2
      simp [keptEntry, hdex] at hke
    · exact hnr hr
    · have hpath : e.path = propsName := by rw [hp]
      rw [hpath] at hdex
      exact absurd hdex (by decide)

theorem repackage_excludes_signature_and_original_dex_witness :
    (∀ e ∈ repackage_apk
        [⟨"AndroidManifest.xml", [1]⟩, ⟨"classes.dex", [2]⟩,
         ⟨"META-INF/CERT.SF", [3]⟩, ⟨"res/layout.xml", [4]⟩]
        [⟨"classes.dex", [9]⟩, ⟨"classes2.dex", [8]⟩] [5],
      isSignatureMetadata e.path = false) ∧
    (∀ e ∈ [(⟨"AndroidManifest.xml", [1]⟩ : Entry), ⟨"classes.dex", [2]⟩,
         ⟨"META-INF/CERT.SF", [3]⟩, ⟨"res/layout.xml", [4]⟩],
      isPrimaryBytecode e.path = true →
      e ∉ [(⟨"classes.dex", [9]⟩ : Entry), ⟨"classes2.dex", [8]⟩] →
      e ∉ repackage_apk
        [⟨"AndroidManifest.xml", [1]⟩, ⟨"classes.dex", [2]⟩,
         ⟨"META-INF/CERT.SF", [3]⟩, ⟨"res/layout.xml", [4]⟩]
        [⟨"classes.dex", [9]⟩, ⟨"classes2.dex", [8]⟩] [5]) :=
  repackage_excludes_signature_and_original_dex _ _ _ (by decide)

/-- C3 as stated is false: when the source archive itself contains an
ordinary entry named `jacoco-agent.properties`, the pass copies it and the
injection step appends a second entry with that name, so the properties entry
appears twice in the output, not exactly once. -/
theorem repackage_properties_duplicate_counterexample :
    ¬ countPath propsName
        (repackage_apk [⟨"jacoco-agent.properties", [0]⟩] [] [1]) = 1 := by
  decide

/-- C3 (amended): provided no source-archive entry and no replacement file is
named `jacoco-agent.properties`, every file of the replacement directory
appears in the output archive under its filename with its content, the output
is exactly the kept source entries followed by the replacement entries
followed by the properties entry, and the properties entry appears exactly
once. -/
theorem repackage_injection_amended
    (src repl : List Entry) (props : List Nat)
    (hsrc : ∀ e ∈ src, ¬ e.path = propsName)
    (hrepl : ∀ r ∈ repl, ¬ r.path = propsName) :
    (∀ r ∈ repl, r ∈ repackage_apk src repl props) ∧
    repackage_apk src repl props =
      keptEntries src ++ repl ++ [⟨propsName, props⟩] ∧
    countPath propsName (repackage_apk src repl props) = 1 := by
  refine ⟨fun r hr => List.mem_append_left _ (List.mem_append_right _ hr), rfl, ?_⟩
  simp only [repackage_apk, countPath, List.countP_append]
  have h1 : (keptEntries src).countP (fun e => decide (e.path = propsName)) = 0 :=
    List.countP_eq_zero.2 fun e hmem => by
      simpa using hsrc e (mem_keptEntries hmem).1
  have h2 : repl.countP (fun e => decide (e.path = propsName)) = 0 :=
    List.countP_eq_zero.2 fun e hmem => by simpa using hrepl e hmem
  rw [h1, h2]
  simp [List.countP_cons]

theorem repackage_injection_amended_witness :
    (∀ r ∈ [(⟨"classes.dex", [9]⟩ : Entry), ⟨"classes2.dex", [8]⟩],
      r ∈ repackage_apk [⟨"res/layout.xml", [4]⟩]
        [⟨"classes.dex", [9]⟩, ⟨"classes2.dex", [8]⟩] [5]) ∧
    repackage_apk [⟨"res/layout.xml", [4]⟩]
        [⟨"classes.dex", [9]⟩, ⟨"classes2.dex", [8]⟩] [5] =
      keptEntries [⟨"res/layout.xml", [4]⟩] ++
        [⟨"classes.dex", [9]⟩, ⟨"classes2.dex", [8]⟩] ++ [⟨propsName, [5]⟩] ∧
    countPath propsName (repackage_apk [⟨"res/layout.xml", [4]⟩]
        [⟨"classes.dex", [9]⟩, ⟨"classes2.dex", [8]⟩] [5]) = 1 :=
  repackage_injection_amended _ _ _ (by decide) (by decide)

/-- C9: the repackaged archive is built fully in memory and written in a
single final step, so when repackaging fails before the write begins (the
source archive is malformed, the replacement directory is absent, or the
properties file is absent) the prior content of the target path is intact and
no partial file exists there. -/
theorem repackage_failure_leaves_target_intact
    (src repl : Option (List Entry)) (props : Option (List Nat))
    (disk : List Entry)
    (h : src = none ∨ repl = none ∨ props = none) :
    repackage_apk_run src repl props disk = (disk, false) := by
  cases src <;> cases repl <;> cases props <;> simp_all [repackage_apk_run]

theorem repackage_failure_leaves_target_intact_witness :
    repackage_apk_run none (some [⟨"classes.dex", [9]⟩]) (some [5])
      [⟨"old", [7]⟩] = ([⟨"old", [7]⟩], false) :=
  repackage_failure_leaves_target_intact _ _ _ _ (Or.inl rfl)

/-- C10: the primary-bytecode pattern is evaluated on the full entry path, so
an entry such as `classes_extra/helper.dex` in a subdirectory is also dropped
from the repackaged archive when it is not under `META-INF/` (and is not
re-injected by the replacement directory). -/
theorem nested_dex_entries_dropped
    (src repl : List Entry) (props : List Nat) (e : Entry)
    (he : e ∈ src)
    (h1 : strStartsWith e.path "classes" = true)
    (h2 : strEndsWith e.path ".dex" = true)
    (h3 : isSignatureMetadata e.path = false)
    (hr : e ∉ repl) :
    e ∉ repackage_apk src repl props := by
  intro hmem
  simp only [repackage_apk, List.mem_append, List.mem_singleton] at hmem
  rcases hmem with (hk | hrl) | hp
  · have hke := (mem_keptEntries hk).2
    simp [keptEntry, isPrimaryBytecode, h1, h2] at hke
  · exact hr hrl
  · have hpath : e.path = propsName := by rw [hp]
    rw [hpath] at h2
    exact absurd h2 (by decide)

theorem nested_dex_entries_dropped_witness :
    (⟨"classes_extra/helper.dex", [7]⟩ : Entry) ∉
      repackage_apk [⟨"classes_extra/helper.dex", [7]⟩, ⟨"a.txt", [1]⟩] [] [5] :=
  nested_dex_entries_dropped _ _ _ _ (by decide) (by decide) (by decide)
    (by decide) (by decide)

/-! ## Claims about the manifest patcher -/

theorem findApplication_tag : ∀ {cs : List XML} {app : XML},
    findApplication cs = some app → app.tag = "application" := by
  intro cs
  induction cs with
  | nil => intro app h; simp [findApplication] at h
  | cons c cs ih =>
    intro app h
    by_cases hc : c.tag = "application"
    · simp only [findApplication, if_pos hc, Option.some.injEq] at h
      subst h; exact hc
    · simp only [findApplication, if_neg hc] at h
      exact ih h

theorem patchChildren_of_found : ∀ {cs : List XML} {app : XML},
    findApplication cs = some app →
    ∃ cs', patchChildren cs = some cs' ∧
      findApplication cs' = some (appendReceiver app) := by
  intro cs
  induction cs with
  | nil => intro app h; simp [findApplication] at h
  | cons c cs ih =>
    intro app h
    by_cases hc : c.tag = "application"
    · simp only [findApplication, if_pos hc, Option.some.injEq] at h
      subst h
      refine ⟨appendReceiver c :: cs, by simp [patchChildren, hc], ?_⟩
      have ht : (appendReceiver c).tag = "application" := hc
      simp [findApplication, ht]
    · simp only [findApplication, if_neg hc] at h
      obtain ⟨cs', hp, hf⟩ := ih h
      exact ⟨c :: cs', by simp [patchChildren, hc, hp], by simp [findApplication, hc, hf]⟩

/-- C4: on a parsed manifest whose root has an `application` child, the patch
succeeds and yields exactly one additional `receiver` child, appended as the
last child of the `application` element, carrying `android:name =
cosmo.receiver.EndCoverageBroadcast`, `android:exported = true`, and one
`intent-filter` child holding one `action` with `android:name =
intent.END_COVERAGE` — whatever children `application` already had. -/
theorem patch_manifest_adds_receiver (root app : XML)
    (h : findApplication root.children = some app) :
    ∃ rootAfter, patch_manifest root = some rootAfter ∧
      findApplication rootAfter.children =
        some (XML.elem "application" app.attrs (app.children ++ [receiverElem])) ∧
      countTag "receiver" (app.children ++ [receiverElem]) =
        countTag "receiver" app.children + 1 ∧
      (app.children ++ [receiverElem]).getLast? = some receiverElem ∧
      receiverElem = XML.elem "receiver"
        [("android:name", "cosmo.receiver.EndCoverageBroadcast"),
         ("android:exported", "true")]
        [XML.elem "intent-filter" []
          [XML.elem "action" [("android:name", "intent.END_COVERAGE")] []]] := by
  obtain ⟨cs', hp, hf⟩ := patchChildren_of_found h
  have htag := findApplication_tag h
  refine ⟨XML.elem root.tag root.attrs cs', by simp [patch_manifest, hp], ?_, ?_, ?_, rfl⟩
  · have hch : (XML.elem root.tag root.attrs cs').children = cs' := rfl
    rw [hch, hf]
    simp [appendReceiver, htag]
  · simp [countTag, List.countP_append, List.countP_cons, receiverElem, XML.tag]
  · exact List.getLast?_concat _

theorem patch_manifest_adds_receiver_witness :
    ∃ rootAfter,
      patch_manifest (XML.elem "manifest" [("package", "com.example")]
        [XML.elem "uses-sdk" [] [],
         XML.elem "application" [("android:label", "x")]
           [XML.elem "activity" [] []]]) = some rootAfter ∧
      findApplication rootAfter.children =
        some (XML.elem "application" [("android:label", "x")]
          ([XML.elem "activity" [] []] ++ [receiverElem])) ∧
      countTag "receiver" ([XML.elem "activity" [] []] ++ [receiverElem]) =
        countTag "receiver" [XML.elem "activity" [] []] + 1 ∧
      ([XML.elem "activity" [] []] ++ [receiverElem]).getLast? = some receiverElem ∧
      receiverElem = XML.elem "receiver"
        [("android:name", "cosmo.receiver.EndCoverageBroadcast"),
         ("android:exported", "true")]
        [XML.elem "intent-filter" []
          [XML.elem "action" [("android:name", "intent.END_COVERAGE")] []]] :=
  patch_manifest_adds_receiver _
    (XML.elem "application" [("android:label", "x")] [XML.elem "activity" [] []])
    (by rfl)

theorem patchChildren_none_of_not_found : ∀ {cs : List XML},
    findApplication cs = none → patchChildren cs = none := by
  intro cs
  induction cs with
  | nil => intro _; rfl
  | cons c cs ih =>
    intro h
    by_cases hc : c.tag = "application"
    · simp [findApplication, hc] at h
    · simp only [findApplication, if_neg hc] at h
      simp [patchChildren, hc, ih h]

/-- C7: when the root has no `application` child, the patch fails (the lookup
yields nothing and appending the receiver raises) and the manifest document on
disk is left unchanged, because serialization only happens after a successful
patch. -/
theorem patch_manifest_missing_application (disk : XML)
    (h : findApplication disk.children = none) :
    runPatchOnDisk disk = (disk, false) := by
  have hp : patch_manifest disk = none := by
    simp [patch_manifest, patchChildren_none_of_not_found h]
  simp [runPatchOnDisk, hp]

theorem patch_manifest_missing_application_witness :
    runPatchOnDisk (XML.elem "manifest" [] [XML.elem "uses-sdk" [] []]) =
      (XML.elem "manifest" [] [XML.elem "uses-sdk" [] []], false) :=
  patch_manifest_missing_application _ (by rfl)

/-- C8: the patcher registers the conventional `android` prefix for the vendor
namespace URI before serializing, so for a document whose vendor URI is bound
to `android` the serialized output keeps that same prefix-to-URI binding —
whereas with no registration the serializer would emit the auto-generated
prefix `ns0`. -/
theorem patch_preserves_android_prefix_binding :
    serializerPrefixFor patchRegisteredNamespaces androidNamespaceURI =
      "android" ∧
    serializerPrefixFor [] androidNamespaceURI = "ns0" :=
  ⟨rfl, rfl⟩

/-! ## Claims about the pipeline and the requirements check -/

theorem firstFailure_isSome {ok : Stage → Bool} :
    ∀ {l : List Stage} {s : Stage}, s ∈ l → ok s = false →
      ¬ firstFailure ok l = none := by
  intro l
  induction l with
  | nil => intro s hs _ _; simp at hs
  | cons a t ih =>
    intro s hs hf
    cases ha : ok a with
    | false => simp [firstFailure, ha]
    | true =>
      rcases List.mem_cons.1 hs with rfl | hs'
      · rw [ha] at hf; cases hf
      · simp only [firstFailure, ha, if_true]
        exact ih hs' hf

theorem executedStages_last_all_ok {ok : Stage → Bool} :
    ∀ {l : List Stage} {x : Stage}, x ∉ l →
      x ∈ executedStages ok (l ++ [x]) → ∀ y ∈ l, ok y = true := by
  intro l
  induction l with
  | nil => intro x _ _ y hy; simp at hy
  | cons a t ih =>
    intro x hxl hmem y hy
    have hxa : x ≠ a := fun h => hxl (h ▸ List.mem_cons_self a t)
    have hxt : x ∉ t := fun h => hxl (List.mem_cons_of_mem a h)
    rw [List.cons_append] at hmem
    cases ha : ok a with
    | false =>
      simp [executedStages, ha] at hmem
      exact absurd hmem hxa
    | true =>
      simp only [executedStages, ha, if_true, List.mem_cons] at hmem
      rcases hmem with rfl | hm
      · exact absurd rfl hxa
      · rcases List.mem_cons.1 hy with rfl | hyt
        · exact ha
        · exact ih hxt hm y hyt

/-- C5: if any stage from bytecode conversion through signing fails, the run
aborts with a propagated error (there is a first failing stage) and the
output-copy step never executes, so no files are written to the fixed output
directory. -/
theorem pipeline_abort_on_failure (ok : Stage → Bool) (s : Stage)
    (hs : s ∈ middleStages) (hfail : ok s = false) :
    ¬ firstFailure ok pipelineOrder = none ∧
    Stage.copyOut ∉ executedStages ok pipelineOrder := by
  have hsp : s ∈ pipelineOrder := by
    have hsub : ∀ x ∈ middleStages, x ∈ pipelineOrder := by decide
    exact hsub s hs
  refine ⟨firstFailure_isSome hsp hfail, ?_⟩
  intro hmem
  have hdecomp : pipelineOrder =
      [Stage.parseApk, .dex2jar, .instrumentJar, .dalvik, .repackage, .decode,
       .patchManifest, .build, .align, .sign] ++ [Stage.copyOut] := rfl
  rw [hdecomp] at hmem
  have hall := executedStages_last_all_ok (by decide) hmem
  have hsl : s ∈ [Stage.parseApk, .dex2jar, .instrumentJar, .dalvik,
      .repackage, .decode, .patchManifest, .build, .align, .sign] := by
    have hsub : ∀ x ∈ middleStages, x ∈ [Stage.parseApk, .dex2jar,
        .instrumentJar, .dalvik, .repackage, .decode, .patchManifest,
        .build, .align, .sign] := by decide
    exact hsub s hs
  rw [hall s hsl] at hfail
  cases hfail

theorem pipeline_abort_on_failure_witness :
    ¬ firstFailure (fun st => !(st == Stage.repackage)) pipelineOrder = none ∧
    Stage.copyOut ∉
      executedStages (fun st => !(st == Stage.repackage)) pipelineOrder :=
  pipeline_abort_on_failure _ Stage.repackage (by decide) (by decide)

/-- C6 as stated is false on the code: `check_requirements` tests only the
receiver archive and the six executables; with the agent archive, the
properties template and the debug keystore all absent but everything it does
test present, the startup check passes and every pipeline stage executes —
no precondition failure is reported before the pipeline runs. -/
theorem missing_assets_not_checked_counterexample :
    check_requirements
        ⟨true, false, false, false, true, true, true, true, true, true⟩ = true ∧
    run_instrumentation
        ⟨true, false, false, false, true, true, true, true, true, true⟩
        (fun _ => true) = (pipelineOrder, true) := by
  decide

/-- C6 (amended): absence of any required external tool or of the receiver
component archive is a fatal precondition failure reported before any
pipeline stage runs — the run executes no stage and fails; the other bundled
assets (agent archive, properties template, debug keystore) are not checked
at startup. -/
theorem missing_tool_or_receiver_aborts_before_pipeline
    (e : Env) (ok : Stage → Bool)
    (h : e.receiverJar = false ∨ e.javaFound = false ∨ e.dex2jarFound = false ∨
         e.dxFound = false ∨ e.zipalignFound = false ∨
         e.apksignerFound = false ∨ e.apktoolFound = false) :
    run_instrumentation e ok = ([], false) := by
  have hc : check_requirements e = false := by
    rcases h with h | h | h | h | h | h | h <;> simp [check_requirements, h]
  simp [run_instrumentation, hc]

theorem missing_tool_or_receiver_aborts_before_pipeline_witness :
    run_instrumentation
        ⟨false, true, true, true, true, true, true, true, true, true⟩
        (fun _ => true) = ([], false) :=
  missing_tool_or_receiver_aborts_before_pipeline _ _ (Or.inl rfl)

end Cosmo
